import Mathlib

/-!
Shallow embedding of the scheduling/trigger subsystem of `src/agent/orchestrator.py`
(classes `Orchestrator` and `TriggerManager`), together with theorems settling the
specification claims about it.

Modelling conventions:
* Python callables are represented by numeric identifiers (`Nat`); the behaviour of a
  callback during a run is an oracle `raises : Nat → Bool` saying whether invoking that
  callback raises an exception.  Side effects of callbacks are recorded as a log of
  invoked callback identifiers.
* Wall-clock times (`datetime.now()`, sleep durations) are rationals (seconds).
* `random.uniform(a, b)` is modelled as `a + (b - a) * r` for a sample `r ∈ [0, 1]`,
  supplied as an explicit argument.
* Python exceptions raised out of a function are modelled with `Except`; code that
  catches all exceptions (the `try/except` in `Orchestrator._run_task`) is total.
* Python object identity matters for `Orchestrator`: the task loops created by
  `start()` hold references to `Task` objects, while `self.tasks` is a list of
  references to the same objects.  We model the objects in a heap (`List Task`,
  indexed by creation order) and both `self.tasks` and the started loops as lists of
  indices into that heap.
-/

namespace Orch

/-- Python `str.lower()` restricted to the characters that occur in this development
(ASCII), via `Char.toLower`. -/
def py_lower (s : String) : String :=
  String.mk (s.data.map Char.toLower)

/-- Python `k in s` substring containment on strings. -/
def py_in (k s : String) : Bool :=
  decide (k.data <:+: s.data)

/-- The `Task` dataclass of `orchestrator.py` (lines 16–24): name, callback,
`interval_seconds`, `enabled` flag, optional `last_run` timestamp and `run_count`. -/
structure Task where
  name : String
  callback : Nat
  interval_seconds : Int
  enabled : Bool
  last_run : Option ℚ
  run_count : Nat
  deriving Repr, DecidableEq

instance : Inhabited Task := ⟨⟨"", 0, 0, true, none, 0⟩⟩

/-- Modelled from the spec: the error taxonomy of spec §7 (`DuplicateTaskError`,
`InvalidIntervalError`).  No such exception classes exist anywhere in the source;
the type is needed to state the claims that `add_task` signals them. -/
inductive SchedulerError where
  | duplicateTaskError
  | invalidIntervalError
  deriving Repr, DecidableEq

/-- `Orchestrator._calculate_next_run` (lines 95–107): `variance = base * variance_factor`,
`adjustment = random.uniform(-variance, variance)`, result `max(1.0, base + adjustment)`.
The uniform draw is `-variance + 2 * variance * r` for the sample `r ∈ [0, 1]`. -/
def calculate_next_run (variance_factor base_interval r : ℚ) : ℚ :=
  let variance := base_interval * variance_factor
  let adjustment := -variance + (variance - -variance) * r
  max 1 (base_interval + adjustment)

/-- `Orchestrator._run_task` (lines 109–126): the callback is invoked inside a
`try` block; only if it returns normally are `last_run` and `run_count` updated.
Any exception is caught and logged, so the function is total. -/
def run_task (raises : Nat → Bool) (now : ℚ) (t : Task) : Task :=
  if raises t.callback then
    t
  else
    { t with last_run := some now, run_count := t.run_count + 1 }

/-- The state of the `Orchestrator` object: the heap of all `Task` objects created so
far (indexed by creation order), `self.tasks` and the loops created by `start()` as
lists of heap indices, the `running` flag and `variance_factor`. -/
structure Sched where
  heap : List Task
  tasks : List Nat
  loops : List Nat
  running : Bool
  variance_factor : ℚ
  deriving Repr, DecidableEq

/-- A freshly constructed `Orchestrator` (lines 33–49). -/
def Sched.init (variance_factor : ℚ) : Sched :=
  ⟨[], [], [], false, variance_factor⟩

/-- Heap lookup (dereferencing a task object). -/
def Sched.task_at (s : Sched) (i : Nat) : Task :=
  s.heap.getD i default

/-- `Orchestrator.add_task` (lines 51–74): constructs a `Task` and unconditionally
appends it to `self.tasks`.  The source performs no duplicate-name check and no
interval validation, so the result is always `.ok`; the `Except` layer records
that no `SchedulerError` is ever signalled. -/
def add_task (s : Sched) (name : String) (callback : Nat) (interval_seconds : Int)
    (enabled : Bool) : Except SchedulerError Sched :=
  .ok { s with
          heap := s.heap ++ [⟨name, callback, interval_seconds, enabled, none, 0⟩],
          tasks := s.tasks ++ [s.heap.length] }

/-- `Orchestrator.remove_task` (lines 76–79): `self.tasks = [t for t in self.tasks
if t.name != name]`.  Only the registry list is rebuilt; the heap, the started
loops and the running flag are untouched. -/
def remove_task (s : Sched) (name : String) : Sched :=
  { s with tasks := s.tasks.filter (fun i => (s.task_at i).name != name) }

/-- `Orchestrator.enable_task` (lines 81–86): sets `enabled := true` on every task
in `self.tasks` whose name matches. -/
def enable_task (s : Sched) (name : String) : Sched :=
  { s with
      heap := s.tasks.foldl
        (fun h i =>
          if (h.getD i default).name = name then
            h.set i { h.getD i default with enabled := true }
          else h)
        s.heap }

/-- `Orchestrator.disable_task` (lines 88–93): sets `enabled := false` on every task
in `self.tasks` whose name matches. -/
def disable_task (s : Sched) (name : String) : Sched :=
  { s with
      heap := s.tasks.foldl
        (fun h i =>
          if (h.getD i default).name = name then
            h.set i { h.getD i default with enabled := false }
          else h)
        s.heap }

/-- `Orchestrator.start` (lines 140–158): sets `running := true` and creates one
loop per task currently in `self.tasks` (a no-op when already running). -/
def start (s : Sched) : Sched :=
  if s.running then s else { s with running := true, loops := s.tasks }

/-- One entry of `Orchestrator.get_status()["tasks"]` (lines 165–179). -/
structure TaskStatus where
  name : String
  enabled : Bool
  interval : Int
  last_run : Option ℚ
  run_count : Nat
  deriving Repr, DecidableEq

/-- `Orchestrator.get_status` (lines 165–179): the running flag plus a snapshot of
every task in `self.tasks`. -/
def get_status (s : Sched) : Bool × List TaskStatus :=
  (s.running,
   s.tasks.map fun i =>
     ⟨(s.task_at i).name, (s.task_at i).enabled, (s.task_at i).interval_seconds,
      (s.task_at i).last_run, (s.task_at i).run_count⟩)

/-- One iteration of the body of `Orchestrator._task_loop` (lines 128–138) for the
loop holding a reference to heap index `i`, at wall-clock time `now`, with jitter
sample `r`.  If `self.running` is false the loop exits (state unchanged, callback
not invoked); otherwise the task runs iff its `enabled` flag is set, and the loop
then sleeps the jittered interval.  Returns the new state, the time after the
sleep, and whether the task's callback was invoked this iteration. -/
def task_loop_iter (raises : Nat → Bool) (s : Sched) (i : Nat) (now r : ℚ) :
    Sched × ℚ × Bool :=
  if s.running then
    let t := s.task_at i
    let h := if t.enabled then s.heap.set i (run_task raises now t) else s.heap
    let next_run := calculate_next_run s.variance_factor (t.interval_seconds : ℚ) r
    ({ s with heap := h }, now + next_run, t.enabled)
  else
    (s, now, false)

/-- A trigger rule of `TriggerManager` (the dicts built in lines 197–227): either a
keyword rule (the stored keyword list — already lowercased at registration when
case-insensitive — the `case_sensitive` flag and the callback) or a mention rule. -/
inductive Trigger where
  | keyword (keywords : List String) (case_sensitive : Bool) (callback : Nat)
  | mention (callback : Nat)
  deriving Repr, DecidableEq

/-- `TriggerManager.add_keyword_trigger` (lines 197–218): stores the keywords as
given when `case_sensitive`, otherwise lowercased (`[k.lower() for k in keywords]`),
and appends the rule. -/
def add_keyword_trigger (triggers : List Trigger) (keywords : List String)
    (callback : Nat) (case_sensitive : Bool) : List Trigger :=
  triggers ++
    [.keyword (if case_sensitive then keywords else keywords.map py_lower)
      case_sensitive callback]

/-- `TriggerManager.add_mention_trigger` (lines 220–227). -/
def add_mention_trigger (triggers : List Trigger) (callback : Nat) : List Trigger :=
  triggers ++ [.mention callback]

/-- The `context` mapping passed to `check_triggers`; only Boolean values occur in
the claims, so it is a finite map from string keys to Booleans. -/
def Ctx : Type := List (String × Bool)

/-- Python `context.get(key, False)`: the stored value if the key is present,
`False` otherwise. -/
def ctx_get (ctx : Ctx) (key : String) : Bool :=
  match List.find? (fun p => p.1 == key) ctx with
  | some p => p.2
  | none => false

/-- Invoking a trigger callback (lines 250–253 / 262–265): the call either raises
(modelled by the oracle, propagating as `.error`) or returns, appending the
callback identifier to the invocation log. -/
def invoke_callback (raises : Nat → Bool) (cb : Nat) (log : List Nat) :
    Except Nat (List Nat) :=
  if raises cb then .error cb else .ok (log ++ [cb])

/-- The inner `for keyword in trigger["keywords"]` loop of `check_triggers`
(lines 246–255): for every stored keyword contained in `text` the callback is
invoked and `triggered` is set; there is no exception handler, so a raising
callback aborts the whole `check_triggers` call. -/
def check_keywords (raises : Nat → Bool) (cb : Nat) (text : String) :
    List String → List Nat → Bool → Except Nat (List Nat × Bool)
  | [], log, triggered => .ok (log, triggered)
  | k :: ks, log, triggered =>
    if py_in k text then
      match invoke_callback raises cb log with
      | .error e => .error e
      | .ok log1 => check_keywords raises cb text ks log1 true
    else
      check_keywords raises cb text ks log triggered

/-- The outer `for trigger in self.triggers` loop of `TriggerManager.check_triggers`
(lines 229–269), threading the invocation log and the `triggered` flag. -/
def check_triggers_aux (raises : Nat → Bool) (message : String) (ctx : Ctx) :
    List Trigger → List Nat → Bool → Except Nat (Bool × List Nat)
  | [], log, triggered => .ok (triggered, log)
  | .keyword ks cs cb :: rest, log, triggered =>
    let text := if cs then message else py_lower message
    match check_keywords raises cb text ks log triggered with
    | .error e => .error e
    | .ok (log1, trig1) => check_triggers_aux raises message ctx rest log1 trig1
  | .mention cb :: rest, log, triggered =>
    if ctx_get ctx "is_mention" then
      match invoke_callback raises cb log with
      | .error e => .error e
      | .ok log1 => check_triggers_aux raises message ctx rest log1 true
    else
      check_triggers_aux raises message ctx rest log triggered

/-- `TriggerManager.check_triggers(message, context)` (lines 229–269).  Returns
the `triggered` flag together with the ordered log of callback invocations, or
`.error cb` when callback `cb` raised (the source has no per-rule exception
handling, so the exception propagates to the caller). -/
def check_triggers (raises : Nat → Bool) (triggers : List Trigger)
    (message : String) (ctx : Ctx) : Except Nat (Bool × List Nat) :=
  check_triggers_aux raises message ctx triggers [] false

/-- Whether a single stored rule matches a message/context pair, read off the
match conditions of `check_triggers`: a keyword rule matches iff one of its stored
keywords is a substring of the (lowercased, when case-insensitive) message text; a
mention rule matches iff the context maps `"is_mention"` to true. -/
def trigger_fires (message : String) (ctx : Ctx) : Trigger → Bool
  | .keyword ks cs _ => ks.any fun k => py_in k (if cs then message else py_lower message)
  | .mention _ => ctx_get ctx "is_mention"

/-- The callback invocations `check_triggers` performs, rule by rule: a keyword
rule's callback once per stored keyword contained in the text, a mention rule's
callback once when the context marks a mention. -/
def trigger_invocations (message : String) (ctx : Ctx) : List Trigger → List Nat
  | [] => []
  | .keyword ks cs cb :: rest =>
    (ks.filter fun k => py_in k (if cs then message else py_lower message)).map
        (fun _ => cb) ++
      trigger_invocations message ctx rest
  | .mention cb :: rest =>
    (if ctx_get ctx "is_mention" then [cb] else []) ++
      trigger_invocations message ctx rest

/-- A run of several consecutive iterations of `_task_loop` for the loop holding
heap index `i`: each tick is described by whether the action raises on that tick
and by the tick's jitter sample. -/
def run_loop (i : Nat) : Sched → ℚ → List (Bool × ℚ) → Sched × ℚ
  | s, now, [] => (s, now)
  | s, now, (b, r) :: ticks =>
    let step := task_loop_iter (fun _ => b) s i now r
    run_loop i step.1 step.2.1 ticks

/-- Two independently registered case-insensitive keyword rules, both with the
keyword `"gm"`, with callback 0 for the first rule and callback 1 for the
second. -/
def c2_rules : List Trigger :=
  add_keyword_trigger (add_keyword_trigger [] ["gm"] 0 false) ["gm"] 1 false

/-! ### Helper lemmas -/

theorem list_getD_set {α : Type} (l : List α) (i j : Nat) (a d : α) :
    (l.set i a).getD j d = if i = j ∧ i < l.length then a else l.getD j d := by
  simp only [List.getD_eq_getElem?_getD, List.getElem?_set]
  by_cases hij : i = j
  · subst hij
    by_cases hl : i < l.length
    · simp [hl]
    · simp [hl, List.getElem?_eq_none (Nat.le_of_not_lt hl)]
  · simp [hij]

theorem list_getD_append {α : Type} (l l' : List α) (i : Nat) (d : α)
    (h : i < l.length) : (l ++ l').getD i d = l.getD i d := by
  simp [List.getD_eq_getElem?_getD, List.getElem?_append, h]

/-- With no callback raising, the inner keyword loop returns normally, invokes the
callback once per stored keyword contained in the text, and sets `triggered` iff
some keyword matched. -/
theorem check_keywords_ok (cb : Nat) (text : String) (ks : List String)
    (log : List Nat) (triggered : Bool) :
    check_keywords (fun _ => false) cb text ks log triggered =
      .ok (log ++ (ks.filter fun k => py_in k text).map (fun _ => cb),
           triggered || ks.any fun k => py_in k text) := by
  induction ks generalizing log triggered with
  | nil => simp [check_keywords]
  | cons k ks ih =>
    simp only [check_keywords, invoke_callback, if_neg (Bool.false_ne_true),
      List.filter_cons, List.any_cons]
    by_cases h : py_in k text
    · simp [h, ih, List.append_assoc]
    · simp [h, ih]

/-- With no callback raising, `check_triggers_aux` returns normally, its flag is
`triggered` or-ed with "some rule matches", and its log grows by exactly the
per-rule invocations. -/
theorem check_triggers_aux_ok (message : String) (ctx : Ctx) (ts : List Trigger)
    (log : List Nat) (triggered : Bool) :
    check_triggers_aux (fun _ => false) message ctx ts log triggered =
      .ok (triggered || ts.any (trigger_fires message ctx),
           log ++ trigger_invocations message ctx ts) := by
  induction ts generalizing log triggered with
  | nil => simp [check_triggers_aux, trigger_invocations]
  | cons t rest ih =>
    cases t with
    | keyword ks cs cb =>
      simp only [check_triggers_aux, check_keywords_ok, trigger_invocations,
        trigger_fires, List.any_cons]
      rw [ih]
      simp [Bool.or_assoc, List.append_assoc]
    | mention cb =>
      simp only [check_triggers_aux, trigger_invocations, trigger_fires,
        List.any_cons, invoke_callback, if_neg (Bool.false_ne_true)]
      by_cases h : ctx_get ctx "is_mention"
      · simp [h, ih, List.append_assoc]
      · simp [h, ih]

/-- With no callback raising, `check_triggers` returns normally; the returned flag
says whether some registered rule matched, and the log is the full invocation
list. -/
theorem check_triggers_ok (ts : List Trigger) (message : String) (ctx : Ctx) :
    check_triggers (fun _ => false) ts message ctx =
      .ok (ts.any (trigger_fires message ctx), trigger_invocations message ctx ts) := by
  simp [check_triggers, check_triggers_aux_ok]

/-- The `enable_task`/`disable_task` fold touches only the `enabled` flag: every
other field of every heap entry is preserved. -/
theorem set_enabled_foldl_preserves (v : Bool) (name : String) (ids : List Nat)
    (h : List Task) (j : Nat) :
    ((ids.foldl
        (fun h i =>
          if (h.getD i default).name = name then
            h.set i { h.getD i default with enabled := v }
          else h)
        h).getD j default).name = (h.getD j default).name ∧
    ((ids.foldl
        (fun h i =>
          if (h.getD i default).name = name then
            h.set i { h.getD i default with enabled := v }
          else h)
        h).getD j default).callback = (h.getD j default).callback ∧
    ((ids.foldl
        (fun h i =>
          if (h.getD i default).name = name then
            h.set i { h.getD i default with enabled := v }
          else h)
        h).getD j default).interval_seconds = (h.getD j default).interval_seconds ∧
    ((ids.foldl
        (fun h i =>
          if (h.getD i default).name = name then
            h.set i { h.getD i default with enabled := v }
          else h)
        h).getD j default).last_run = (h.getD j default).last_run ∧
    ((ids.foldl
        (fun h i =>
          if (h.getD i default).name = name then
            h.set i { h.getD i default with enabled := v }
          else h)
        h).getD j default).run_count = (h.getD j default).run_count := by
  induction ids generalizing h with
  | nil => simp
  | cons i ids ih =>
    simp only [List.foldl_cons]
    by_cases hn : ((h.getD i default).name = name)
    · rw [if_pos hn]
      obtain ⟨h1, h2, h3, h4, h5⟩ := ih (h.set i { h.getD i default with enabled := v })
      rw [h1, h2, h3, h4, h5]
      refine ⟨?_, ?_, ?_, ?_, ?_⟩ <;> rw [list_getD_set] <;> split <;> simp_all
    · rw [if_neg hn]
      exact ih h

/-- The `enable_task`/`disable_task` fold preserves the heap's length. -/
theorem set_enabled_foldl_length (v : Bool) (name : String) (ids : List Nat)
    (h : List Task) :
    (ids.foldl
        (fun h i =>
          if (h.getD i default).name = name then
            h.set i { h.getD i default with enabled := v }
          else h)
        h).length = h.length := by
  induction ids generalizing h with
  | nil => rfl
  | cons i ids ih =>
    simp only [List.foldl_cons]
    split
    · rw [ih]; simp
    · exact ih h

/-- `add_task` always succeeds, appends one fresh status entry, and leaves the
status snapshot of every previously registered task unchanged.  `hvalid` says
every registry index points into the heap, which holds in every state reachable
through the API. -/
theorem get_status_add_task (s : Sched) (name : String) (cb : Nat)
    (iv : Int) (en : Bool) (hvalid : ∀ i ∈ s.tasks, i < s.heap.length) :
    ∃ s', add_task s name cb iv en = .ok s' ∧ s'.running = s.running ∧
      s'.loops = s.loops ∧
      (get_status s').2 = (get_status s).2 ++ [⟨name, en, iv, none, 0⟩] := by
  refine ⟨_, rfl, rfl, rfl, ?_⟩
  simp only [get_status, Sched.task_at, List.map_append, List.map_cons, List.map_nil]
  congr 1
  · apply List.map_congr_left
    intro i hi
    have hlt := hvalid i hi
    rw [list_getD_append _ _ _ _ hlt]
  · rw [List.getD_eq_getElem?_getD, List.getElem?_append_right (le_refl _)]
    simp

/-! ### Claim theorems -/

/-- C5: the next sleep duration is `base_interval` plus a uniform random
adjustment in `[-variance, +variance]` with `variance = base_interval *
variance_factor`, clamped below at 1 second; with `base_interval = 100` and
`variance_factor = 0.2` every draw lies in `[80, 120]`, and for any
`base_interval` and `variance_factor` the result is never below 1 second. -/
theorem calculate_next_run_jitter_bounds (vf base r : ℚ) :
    1 ≤ calculate_next_run vf base r ∧
    (0 ≤ r → r ≤ 1 → 0 ≤ base * vf →
      ∃ u, -(base * vf) ≤ u ∧ u ≤ base * vf ∧
        calculate_next_run vf base r = max 1 (base + u)) ∧
    (0 ≤ r → r ≤ 1 → base = 100 → vf = 1 / 5 →
      80 ≤ calculate_next_run vf base r ∧ calculate_next_run vf base r ≤ 120) := by
  refine ⟨le_max_left 1 _, ?_, ?_⟩
  · intro h0 h1 hv
    refine ⟨-(base * vf) + (base * vf - -(base * vf)) * r, ?_, ?_, rfl⟩
    · nlinarith
    · nlinarith
  · intro h0 h1 hb hv
    subst hb; subst hv
    unfold calculate_next_run
    constructor
    · refine le_trans (by nlinarith) (le_max_right 1 _)
    · exact max_le (by norm_num) (by nlinarith)

/-- C5 witness: the bounds evaluated at `variance_factor = 0.2`,
`base_interval = 100`, sample `r = 1/2`. -/
theorem calculate_next_run_jitter_bounds_witness :
    1 ≤ calculate_next_run (1 / 5) 100 (1 / 2) ∧
    80 ≤ calculate_next_run (1 / 5) 100 (1 / 2) ∧
    calculate_next_run (1 / 5) 100 (1 / 2) ≤ 120 := by
  have h := calculate_next_run_jitter_bounds (1 / 5) 100 (1 / 2)
  exact ⟨h.1, h.2.2 (by norm_num) (by norm_num) rfl rfl⟩

/-- C6: `check_triggers` returns true iff at least one registered rule fired; a
keyword rule — its keywords stored lowercased at registration when
`case_sensitive` is false — fires exactly when one of its stored keywords is a
substring of the lowercased message text; with keywords `["gm", "wagmi"]` and
`case_sensitive = false`, `"GM fren"` fires and `"nothing relevant"` returns
false. -/
theorem check_triggers_true_iff_rule_fired :
    (∀ (ts : List Trigger) (message : String) (ctx : Ctx),
        check_triggers (fun _ => false) ts message ctx =
          .ok (ts.any (trigger_fires message ctx),
               trigger_invocations message ctx ts) ∧
        (ts.any (trigger_fires message ctx) = true ↔
          ∃ t ∈ ts, trigger_fires message ctx t = true)) ∧
    (∀ (ts : List Trigger) (ks : List String) (cb : Nat),
        add_keyword_trigger ts ks cb false =
          ts ++ [.keyword (ks.map py_lower) false cb]) ∧
    check_triggers (fun _ => false) (add_keyword_trigger [] ["gm", "wagmi"] 0 false)
        "GM fren" [] = .ok (true, [0]) ∧
    check_triggers (fun _ => false) (add_keyword_trigger [] ["gm", "wagmi"] 0 false)
        "nothing relevant" [] = .ok (false, []) := by
  refine ⟨fun ts message ctx => ⟨check_triggers_ok ts message ctx, ?_⟩,
    fun ts ks cb => rfl, rfl, rfl⟩
  simp [List.any_eq_true]

/-- C7: a registered mention trigger fires iff the context maps `"is_mention"`
to true — not when it is false or absent — and its behaviour is independent of
the message content. -/
theorem mention_trigger_fires_iff_is_mention :
    (∀ (cb : Nat) (message : String) (ctx : Ctx),
        check_triggers (fun _ => false) (add_mention_trigger [] cb) message ctx =
          .ok (ctx_get ctx "is_mention",
               if ctx_get ctx "is_mention" then [cb] else []) ∧
        (ctx_get ctx "is_mention" = true ↔
          List.find? (fun p => p.1 == "is_mention") ctx =
            some ("is_mention", true))) ∧
    (∀ (cb : Nat) (message message' : String) (ctx : Ctx),
        check_triggers (fun _ => false) (add_mention_trigger [] cb) message ctx =
          check_triggers (fun _ => false) (add_mention_trigger [] cb) message' ctx) ∧
    check_triggers (fun _ => false) (add_mention_trigger [] 0) "anything"
        [("is_mention", true)] = .ok (true, [0]) ∧
    check_triggers (fun _ => false) (add_mention_trigger [] 0) "anything"
        [("is_mention", false)] = .ok (false, []) ∧
    check_triggers (fun _ => false) (add_mention_trigger [] 0) "anything" [] =
      .ok (false, []) := by
  refine ⟨fun cb message ctx => ⟨?_, ?_⟩, fun cb message message' ctx => ?_,
    rfl, rfl, rfl⟩
  · rw [check_triggers_ok]
    simp only [add_mention_trigger, List.nil_append, List.any_cons, List.any_nil,
      trigger_fires, trigger_invocations, Bool.or_false, List.append_nil]
  · constructor
    · intro hg
      unfold ctx_get at hg
      cases hfind : List.find? (fun p => p.1 == "is_mention") ctx with
      | none => rw [hfind] at hg; exact absurd hg (by simp)
      | some p =>
        rw [hfind] at hg
        have h1 := List.find?_some hfind
        have h2 : p.1 = "is_mention" := by simpa using h1
        obtain ⟨p1, p2⟩ := p
        simp only at h2 hg
        subst h2; subst hg
        rfl
    · intro hf
      unfold ctx_get
      rw [hf]
  · rw [check_triggers_ok, check_triggers_ok]
    rfl

/-- C10: within one `check_triggers` call a keyword rule's callback is invoked
once per stored keyword occurring in the message text, not once per rule:
keywords `["gm", "wagmi"]` on `"gm wagmi fren"` give two invocations of the one
rule's callback. -/
theorem keyword_callback_invoked_per_matching_keyword :
    (∀ (ks : List String) (cs : Bool) (cb : Nat) (message : String) (ctx : Ctx),
        check_triggers (fun _ => false) (add_keyword_trigger [] ks cb cs)
            message ctx =
          .ok (((if cs then ks else ks.map py_lower).any fun k =>
                  py_in k (if cs then message else py_lower message)),
               ((if cs then ks else ks.map py_lower).filter fun k =>
                  py_in k (if cs then message else py_lower message)).map
                 fun _ => cb)) ∧
    check_triggers (fun _ => false) (add_keyword_trigger [] ["gm", "wagmi"] 0 false)
        "gm wagmi fren" [] = .ok (true, [0, 0]) := by
  constructor
  · intro ks cs cb message ctx
    rw [check_triggers_ok]
    cases cs <;>
      simp [add_keyword_trigger, trigger_fires, trigger_invocations]
  · rfl

/-- C2 (code bug): with a message matching both registered rules and the first
rule's callback raising, `check_triggers` propagates the exception instead of
isolating it, so the second rule's callback — which matches the same message
and is invoked when no exception occurs — is never executed. -/
theorem check_triggers_exception_not_isolated :
    trigger_fires "gm fren" [] (Trigger.keyword ["gm"] false 1) = true ∧
    check_triggers (fun cb => cb == 0) c2_rules "gm fren" [] = .error 0 ∧
    check_triggers (fun _ => false) c2_rules "gm fren" [] = .ok (true, [0, 1]) := by
  refine ⟨by decide, rfl, rfl⟩

/-- C1 counterexample: a started scheduler with one enabled task whose action
raises on the tick.  The exception is caught — the iteration completes, the
callback was invoked and the loop proceeds to its jittered sleep — but
`run_count` stays 0 and `last_run` stays `none`, not incremented/updated as the
claim states. -/
theorem run_count_not_incremented_on_failure :
    ((task_loop_iter (fun _ => true)
        ⟨[⟨"auto_post", 7, 10, true, none, 0⟩], [0], [0], true, 1 / 5⟩
        0 0 (1 / 2)).1.task_at 0).run_count = 0 ∧
    ((task_loop_iter (fun _ => true)
        ⟨[⟨"auto_post", 7, 10, true, none, 0⟩], [0], [0], true, 1 / 5⟩
        0 0 (1 / 2)).1.task_at 0).last_run = none ∧
    (task_loop_iter (fun _ => true)
        ⟨[⟨"auto_post", 7, 10, true, none, 0⟩], [0], [0], true, 1 / 5⟩
        0 0 (1 / 2)).2.2 = true := by
  refine ⟨rfl, rfl, rfl⟩

/-- C1 amended: a failure of the action is caught and logged and the task loop
continues — every tick, failing or not, completes and sleeps its jittered
interval, and the loop stays alive — but a failing run does not increment
`run_count` (and does not update `last_run`): after a sequence of ticks,
`run_count` has grown by exactly the number of ticks whose action did not
raise. -/
theorem failed_runs_not_counted (s : Sched) (i : Nat) (now : ℚ)
    (ticks : List (Bool × ℚ))
    (hrun : s.running = true) (hlen : i < s.heap.length)
    (hen : (s.task_at i).enabled = true) :
    ((run_loop i s now ticks).1.task_at i).run_count =
        (s.task_at i).run_count + (ticks.filter (fun t => !t.1)).length ∧
    (run_loop i s now ticks).2 =
        now + (ticks.map (fun t =>
          calculate_next_run s.variance_factor
            ((s.task_at i).interval_seconds : ℚ) t.2)).sum ∧
    (run_loop i s now ticks).1.running = true := by
  induction ticks generalizing s now with
  | nil => simp [run_loop, hrun]
  | cons tk ticks ih =>
    obtain ⟨b, r⟩ := tk
    set t := s.task_at i with ht
    set t' := run_task (fun _ => b) now t with ht'
    have hstep : task_loop_iter (fun _ => b) s i now r =
        ({ s with heap := s.heap.set i t' },
         now + calculate_next_run s.variance_factor (t.interval_seconds : ℚ) r,
         t.enabled) := by
      rw [task_loop_iter, if_pos hrun]
      simp only [← ht, hen, if_true, ← ht']
    have hruns : run_loop i s now ((b, r) :: ticks) =
        run_loop i { s with heap := s.heap.set i t' }
          (now + calculate_next_run s.variance_factor (t.interval_seconds : ℚ) r)
          ticks := by
      rw [run_loop, hstep]
    have hs' : ({ s with heap := s.heap.set i t' } : Sched).task_at i = t' := by
      simp [Sched.task_at, list_getD_set, hlen]
    have hlen' : i < (s.heap.set i t').length := by simpa using hlen
    have hen' : t'.enabled = true := by
      rw [ht']; unfold run_task; split <;> simp [hen]
    have hint : t'.interval_seconds = t.interval_seconds := by
      rw [ht']; unfold run_task; split <;> simp
    have key := ih { s with heap := s.heap.set i t' }
      (now + calculate_next_run s.variance_factor (t.interval_seconds : ℚ) r)
      hrun hlen' (by rw [hs']; exact hen')
    rw [hs', hint] at key
    obtain ⟨h1, h2, h3⟩ := key
    rw [hruns]
    refine ⟨?_, ?_, h3⟩
    · rw [h1, ht']
      unfold run_task
      cases b <;> simp [Nat.add_assoc, Nat.add_comm 1]
    · rw [h2]
      simp only [List.map_cons, List.sum_cons]
      ring

/-- C1 witness: the amended theorem on a started one-task scheduler over two
ticks, the first raising and the second succeeding: one completed run is
counted and both jittered sleeps elapsed. -/
theorem failed_runs_not_counted_witness :
    ((run_loop 0 ⟨[⟨"auto_post", 7, 10, true, none, 0⟩], [0], [0], true, 1 / 5⟩
        0 [(true, 1 / 2), (false, 1 / 2)]).1.task_at 0).run_count = 1 ∧
    (run_loop 0 ⟨[⟨"auto_post", 7, 10, true, none, 0⟩], [0], [0], true, 1 / 5⟩
        0 [(true, 1 / 2), (false, 1 / 2)]).2 = 20 := by
  have h := failed_runs_not_counted
    ⟨[⟨"auto_post", 7, 10, true, none, 0⟩], [0], [0], true, 1 / 5⟩ 0 0
    [(true, 1 / 2), (false, 1 / 2)] rfl (by decide) rfl
  refine ⟨h.1.trans (by decide), h.2.1.trans ?_⟩
  norm_num [calculate_next_run, Sched.task_at]

/-- C3 counterexample: registering `"x"` with interval 10 and then `"x"` again
with interval 20 signals no `DuplicateTaskError` — both calls return `.ok` —
and afterwards two tasks named `"x"` are registered, the original still with
interval 10. -/
theorem add_task_duplicate_name_not_rejected :
    ∃ s1 s2, add_task (Sched.init (1 / 5)) "x" 0 10 true = .ok s1 ∧
      add_task s1 "x" 1 20 true = .ok s2 ∧
      (get_status s2).2.map (fun st => (st.name, st.interval)) =
        [("x", 10), ("x", 20)] := by
  refine ⟨_, _, rfl, rfl, rfl⟩

/-- C3 amended: `add_task` with an already-registered name does not signal
`DuplicateTaskError`: it never fails, and instead appends a second task under
that name, while the snapshot of the previously registered task — in particular
its interval — is unchanged. -/
theorem add_task_duplicate_appends (s : Sched) (name : String) (cb : Nat)
    (iv : Int) (en : Bool) (hvalid : ∀ i ∈ s.tasks, i < s.heap.length) :
    (∀ e : SchedulerError, add_task s name cb iv en ≠ .error e) ∧
    ∃ s', add_task s name cb iv en = .ok s' ∧
      (get_status s').2 = (get_status s).2 ++ [⟨name, en, iv, none, 0⟩] := by
  obtain ⟨s', h1, _, _, h4⟩ := get_status_add_task s name cb iv en hvalid
  exact ⟨fun e h => Except.noConfusion h, s', h1, h4⟩

/-- C3 witness: the amended behaviour at a scheduler already holding `"x"` with
interval 10, registering `"x"` again with interval 20. -/
theorem add_task_duplicate_appends_witness :
    (∀ e : SchedulerError,
        add_task ⟨[⟨"x", 0, 10, true, none, 0⟩], [0], [], false, 1 / 5⟩
          "x" 1 20 true ≠ .error e) ∧
    ∃ s', add_task ⟨[⟨"x", 0, 10, true, none, 0⟩], [0], [], false, 1 / 5⟩
        "x" 1 20 true = .ok s' ∧
      (get_status s').2 =
        (get_status ⟨[⟨"x", 0, 10, true, none, 0⟩], [0], [], false, 1 / 5⟩).2 ++
          [⟨"x", true, 20, none, 0⟩] :=
  add_task_duplicate_appends _ "x" 1 20 true (by decide)

/-- C4 counterexample: `add_task` with interval 0 and with interval −5 both
return `.ok` — no `InvalidIntervalError` is signalled — and in both cases the
task is registered with the given non-positive interval. -/
theorem add_task_nonpositive_interval_not_rejected :
    ∃ s1 s2, add_task (Sched.init (1 / 5)) "x" 0 0 true = .ok s1 ∧
      add_task (Sched.init (1 / 5)) "x" 0 (-5) true = .ok s2 ∧
      (get_status s1).2.map (fun st => (st.name, st.interval)) = [("x", 0)] ∧
      (get_status s2).2.map (fun st => (st.name, st.interval)) = [("x", -5)] := by
  refine ⟨_, _, rfl, rfl, rfl, rfl⟩

/-- C4 amended: `add_task` performs no interval validation: with a zero or
negative `base_interval` it still returns `.ok` and registers the task — the
claim's `InvalidIntervalError` is never signalled — though the per-tick sleep
computed for such a task is clamped to at least 1 second. -/
theorem add_task_no_interval_validation (s : Sched) (name : String) (cb : Nat)
    (iv : Int) (en : Bool) (_hiv : iv ≤ 0)
    (hvalid : ∀ i ∈ s.tasks, i < s.heap.length) :
    (∀ e : SchedulerError, add_task s name cb iv en ≠ .error e) ∧
    (∃ s', add_task s name cb iv en = .ok s' ∧
        (get_status s').2 = (get_status s).2 ++ [⟨name, en, iv, none, 0⟩]) ∧
    ∀ r : ℚ, 1 ≤ calculate_next_run s.variance_factor (iv : ℚ) r := by
  obtain ⟨s', h1, _, _, h4⟩ := get_status_add_task s name cb iv en hvalid
  exact ⟨fun e h => Except.noConfusion h, ⟨s', h1, h4⟩, fun r => le_max_left 1 _⟩

/-- C4 witness: the amended behaviour on an empty scheduler with interval 0. -/
theorem add_task_no_interval_validation_witness :
    (∀ e : SchedulerError,
        add_task (Sched.init (1 / 5)) "x" 0 0 true ≠ .error e) ∧
    (∃ s', add_task (Sched.init (1 / 5)) "x" 0 0 true = .ok s' ∧
        (get_status s').2 = (get_status (Sched.init (1 / 5))).2 ++
          [⟨"x", true, 0, none, 0⟩]) ∧
    ∀ r : ℚ, 1 ≤ calculate_next_run (Sched.init (1 / 5)).variance_factor
        ((0 : Int) : ℚ) r :=
  add_task_no_interval_validation (Sched.init (1 / 5)) "x" 0 0 true
    (by decide) (by decide)

/-- C9 counterexample: task `"x"` is registered and the orchestrator started;
`remove_task "x"` makes it disappear from `get_status`, but the started loop
still holds heap index 0: its next iteration still invokes the action, and the
removed task's `run_count` rises to 1 after removal — the loop was not
stopped. -/
theorem removed_task_loop_still_runs :
    ∃ s1, add_task (Sched.init (1 / 5)) "x" 0 10 true = .ok s1 ∧
      (start s1).loops = [0] ∧
      (get_status (remove_task (start s1) "x")).2 = [] ∧
      (remove_task (start s1) "x").loops = [0] ∧
      (task_loop_iter (fun _ => false) (remove_task (start s1) "x")
          0 0 (1 / 2)).2.2 = true ∧
      ((task_loop_iter (fun _ => false) (remove_task (start s1) "x")
          0 0 (1 / 2)).1.task_at 0).run_count = 1 := by
  refine ⟨_, rfl, rfl, rfl, rfl, rfl, rfl⟩

/-- C9 amended: `remove_task` deregisters every task with the given name — the
name no longer appears in `get_status`, and with an absent name the call is a
no-op — but it does not stop an already-started loop: the heap, the loop list
and the running flag are untouched, so while the orchestrator runs, a started
loop's next iteration still invokes the removed task's action whenever that
task object is enabled. -/
theorem remove_task_deregisters_but_loop_survives (s : Sched) (name : String) :
    (∀ st ∈ (get_status (remove_task s name)).2, st.name ≠ name) ∧
    ((∀ i ∈ s.tasks, (s.task_at i).name ≠ name) → remove_task s name = s) ∧
    (remove_task s name).heap = s.heap ∧
    (remove_task s name).loops = s.loops ∧
    (remove_task s name).running = s.running ∧
    (∀ (raises : Nat → Bool) (i : Nat) (now r : ℚ),
        s.running = true → ((remove_task s name).task_at i).enabled = true →
        (task_loop_iter raises (remove_task s name) i now r).2.2 = true) := by
  refine ⟨?_, ?_, rfl, rfl, rfl, ?_⟩
  · intro st hst
    simp only [get_status, remove_task, List.mem_map, List.mem_filter] at hst
    obtain ⟨i, ⟨hi, hne⟩, rfl⟩ := hst
    simpa using hne
  · intro habs
    unfold remove_task
    have heq : s.tasks.filter (fun i => (s.task_at i).name != name) = s.tasks := by
      apply List.filter_eq_self.mpr
      intro i hi
      simpa using habs i hi
    rw [heq]
  · intro raises i now r hrun hen
    have hrun' : (remove_task s name).running = true := hrun
    rw [task_loop_iter, if_pos hrun']
    simpa using hen

/-- C9 witness: the amended behaviour on a started one-task scheduler: after
removing `"x"` the status is empty, removing the absent `"y"` is a no-op, and
the started loop's next tick still invokes the action. -/
theorem remove_task_deregisters_but_loop_survives_witness :
    (∀ st ∈ (get_status (remove_task
        ⟨[⟨"x", 0, 10, true, none, 0⟩], [0], [0], true, 1 / 5⟩ "x")).2,
      st.name ≠ "x") ∧
    remove_task ⟨[⟨"x", 0, 10, true, none, 0⟩], [0], [0], true, 1 / 5⟩ "y" =
      ⟨[⟨"x", 0, 10, true, none, 0⟩], [0], [0], true, 1 / 5⟩ ∧
    (task_loop_iter (fun _ => false) (remove_task
        ⟨[⟨"x", 0, 10, true, none, 0⟩], [0], [0], true, 1 / 5⟩ "x")
        0 0 (1 / 2)).2.2 = true :=
  ⟨(remove_task_deregisters_but_loop_survives
      ⟨[⟨"x", 0, 10, true, none, 0⟩], [0], [0], true, 1 / 5⟩ "x").1,
   (remove_task_deregisters_but_loop_survives
      ⟨[⟨"x", 0, 10, true, none, 0⟩], [0], [0], true, 1 / 5⟩ "y").2.1 (by decide),
   (remove_task_deregisters_but_loop_survives
      ⟨[⟨"x", 0, 10, true, none, 0⟩], [0], [0], true, 1 / 5⟩ "x").2.2.2.2.2
     (fun _ => false) 0 0 (1 / 2) rfl (by decide)⟩

/-- C8: while a task is disabled its loop still ticks — the iteration leaves the
scheduler state unchanged and invokes nothing, yet still sleeps the jittered
interval and re-checks next time — and `enable_task` itself runs nothing: every
task's `run_count` and `last_run` are untouched and the loop set is unchanged,
so the re-enabled action runs only when the existing loop's next tick fires,
which then does invoke it and count the run. -/
theorem disabled_task_ticks_without_running (s : Sched) (i : Nat) (now r : ℚ)
    (raises : Nat → Bool) (name : String) (hrun : s.running = true) :
    ((s.task_at i).enabled = false →
      task_loop_iter raises s i now r =
        (s, now + calculate_next_run s.variance_factor
              ((s.task_at i).interval_seconds : ℚ) r, false)) ∧
    (∀ j : Nat,
        ((enable_task s name).task_at j).run_count = (s.task_at j).run_count ∧
        ((enable_task s name).task_at j).last_run = (s.task_at j).last_run) ∧
    (enable_task s name).loops = s.loops ∧
    (enable_task s name).running = s.running ∧
    (((enable_task s name).task_at i).enabled = true →
      (task_loop_iter raises (enable_task s name) i now r).2.2 = true ∧
      (raises ((enable_task s name).task_at i).callback = false →
        i < s.heap.length →
        ((task_loop_iter raises (enable_task s name) i now r).1.task_at i).run_count =
          (s.task_at i).run_count + 1)) := by
  refine ⟨?_, ?_, rfl, rfl, ?_⟩
  · intro hdis
    rw [task_loop_iter, if_pos hrun]
    simp only [hdis, if_false, Bool.false_eq_true]
  · intro j
    have h := set_enabled_foldl_preserves true name s.tasks s.heap j
    exact ⟨h.2.2.2.2, h.2.2.2.1⟩
  · intro hen
    have hrun' : (enable_task s name).running = true := hrun
    constructor
    · rw [task_loop_iter, if_pos hrun']
      simpa using hen
    · intro hraise hlen
      have hlenE : i < (enable_task s name).heap.length := by
        show i < (s.tasks.foldl _ s.heap).length
        rw [set_enabled_foldl_length]
        exact hlen
      rw [task_loop_iter, if_pos hrun']
      simp only [hen, if_true]
      show (((enable_task s name).heap.set i
          (run_task raises now ((enable_task s name).task_at i))).getD i
            default).run_count = _
      rw [list_getD_set]
      rw [if_pos ⟨rfl, hlenE⟩]
      unfold run_task
      rw [hraise]
      simp only [Bool.false_eq_true, if_false]
      exact congrArg (· + 1) (set_enabled_foldl_preserves true name s.tasks s.heap i).2.2.2.2

/-- C8 witness: a started scheduler whose one task `"x"` is disabled with
`run_count` 3: the tick leaves everything unchanged while advancing time by the
jittered interval; enabling `"x"` leaves `run_count` at 3, and the next tick of
the existing loop then runs the action, raising `run_count` to 4. -/
theorem disabled_task_ticks_without_running_witness :
    (task_loop_iter (fun _ => false)
        ⟨[⟨"x", 0, 10, false, none, 3⟩], [0], [0], true, 1 / 5⟩ 0 0 (1 / 2) =
      (⟨[⟨"x", 0, 10, false, none, 3⟩], [0], [0], true, 1 / 5⟩,
       0 + calculate_next_run (1 / 5) ((10 : Int) : ℚ) (1 / 2), false)) ∧
    ((enable_task ⟨[⟨"x", 0, 10, false, none, 3⟩], [0], [0], true, 1 / 5⟩
        "x").task_at 0).run_count = 3 ∧
    ((task_loop_iter (fun _ => false)
        (enable_task ⟨[⟨"x", 0, 10, false, none, 3⟩], [0], [0], true, 1 / 5⟩ "x")
        0 0 (1 / 2)).1.task_at 0).run_count = 3 + 1 := by
  have h := disabled_task_ticks_without_running
    ⟨[⟨"x", 0, 10, false, none, 3⟩], [0], [0], true, 1 / 5⟩ 0 0 (1 / 2)
    (fun _ => false) "x" rfl
  exact ⟨h.1 rfl, (h.2.1 0).1, (h.2.2.2.2 (by decide)).2 rfl (by decide)⟩

end Orch
